import Mathlib

/-!
Verification development for the venus2gro repository (files
`src/venus2g96.py` and `src/venus2gro.py`).

The two scripts convert VENUS96 trajectory output to the g96 / gro formats.
This file gives a shallow embedding of the core logic:

* the anchor-driven line scanner of `venus2g96` (Section 1 of the source),
  with Python `str.split`, `str.split("=")`, `int(...)`, `float(...)` and
  list indexing modelled faithfully (fatal Python exceptions become
  `Except.error`);
* the per-frame unit conversion and the reorder (permutation) step;
* the output writer with its `_auto_backup_file` rotation, over an abstract
  file-system state;
* the output-file naming of both variants (`str.replace` on the base path).

Numeric semantics: Python floats are modelled as exact rationals (`Frac`);
the conversion constants 0.1, 10.0 and 1.0e-02 are exact in both worlds.
-/

namespace Venus

/-- Fatal Python exceptions that the scripts can raise while converting:
`IndexError` from out-of-range indexing, `ValueError` from `int()`/`float()`
on malformed text (or `np.concatenate` on an empty list), and
`AssertionError` from the gro-variant atom-count assert. -/
inductive PyErr where
  | indexError
  | valueError
  | assertionError
  deriving DecidableEq

/-- `xs[n]` on a Python list for a non-negative index: `IndexError` when out
of range. -/
def listGetE {α : Type} (xs : List α) (n : Nat) : Except PyErr α :=
  match xs[n]? with
  | some a => Except.ok a
  | none => Except.error PyErr.indexError

/-- Python list read `xs[i]` with an `int` index: negative indices wrap
around from the end (numpy `int32` entries of the reorder map behave the
same way), anything out of `[-len, len)` raises `IndexError`. -/
def pyGet {α : Type} (xs : List α) (i : Int) : Except PyErr α :=
  if i < 0 then
    if 0 ≤ i + (xs.length : Int) then listGetE xs (i + (xs.length : Int)).toNat
    else Except.error PyErr.indexError
  else listGetE xs i.toNat

/-- Python list assignment `xs[i] = v` for a non-negative index (the reorder
loop only assigns at `enumerate` indices): `IndexError` when out of range. -/
def pySet {α : Type} (xs : List α) (i : Nat) (v : α) : Except PyErr (List α) :=
  if i < xs.length then Except.ok (xs.set i v) else Except.error PyErr.indexError

/-- Interpret an `Option` as a fallible Python computation. -/
def liftO {α : Type} (e : PyErr) : Option α → Except PyErr α
  | some a => Except.ok a
  | none => Except.error e

/-- Exact rational numbers in canonical form (denominator positive, reduced
by the gcd).  Python float computations are modelled by exact rationals;
this bespoke type is used instead of the Mathlib rationals so that every arithmetic
operation is a plain structural definition the kernel can evaluate, making
concrete runs of the embedded program checkable by `decide`.  All values
are built through the normalising constructors below, so value equality is
structural equality. -/
structure Frac where
  num : Int
  den : Nat
  deriving DecidableEq

/-- Canonical fraction `n / d` for a natural denominator (junk value `0/1`
for `d = 0`, which no modelled computation produces). -/
def mkFrac (n : Int) (d : Nat) : Frac :=
  if d = 0 then ⟨0, 1⟩
  else
    let g := Nat.gcd n.natAbs d
    ⟨n / (g : Int), d / g⟩

/-- Canonical fraction `n / d` for an integer denominator. -/
def mkFracQ (n d : Int) : Frac :=
  if d < 0 then mkFrac (-n) (-d).toNat else mkFrac n d.toNat

/-- Embed an integer. -/
def Frac.ofInt (n : Int) : Frac := ⟨n, 1⟩

instance (n : Nat) : OfNat Frac n := ⟨Frac.ofInt n⟩

instance : Add Frac :=
  ⟨fun a b => mkFrac (a.num * (b.den : Int) + b.num * (a.den : Int)) (a.den * b.den)⟩

instance : Mul Frac := ⟨fun a b => mkFrac (a.num * b.num) (a.den * b.den)⟩

instance : Neg Frac := ⟨fun a => ⟨-a.num, a.den⟩⟩

instance : Div Frac := ⟨fun a b => mkFracQ (a.num * (b.den : Int)) ((a.den : Int) * b.num)⟩

/-- `pat in s` for strings (Python substring containment), over char lists. -/
def containsSub : List Char → List Char → Bool
  | cs, pat =>
    if List.isPrefixOf pat cs then true
    else
      match cs with
      | [] => false
      | _ :: rest => containsSub rest pat

/-- Python `str.split()` (no argument): split on runs of whitespace,
dropping empty chunks.  Fuel-based structural recursion; the fuel
`cs.length` always suffices because every step consumes a character. -/
def wsplitAux : Nat → List Char → List (List Char)
  | 0, _ => []
  | _, [] => []
  | fuel + 1, c :: rest =>
    if c.isWhitespace then wsplitAux fuel rest
    else
      (c :: List.takeWhile (fun x => !x.isWhitespace) rest) ::
        wsplitAux fuel (List.dropWhile (fun x => !x.isWhitespace) rest)

/-- Python `str.split()` on a line. -/
def wsplit (cs : List Char) : List (List Char) :=
  wsplitAux cs.length cs

/-- Python `line.split("=")[-1]`: the text after the last `=` (the whole
line when there is no `=`).  `str.split` with a separator never returns an
empty list, so `[-1]` never raises. -/
def afterLastEq (cs : List Char) : List Char :=
  (cs.reverse.takeWhile (fun c => c ≠ '=')).reverse

/-- Strip leading and trailing whitespace (Python `int()`/`float()` accept
surrounding whitespace). -/
def stripWs (cs : List Char) : List Char :=
  ((cs.dropWhile Char.isWhitespace).reverse.dropWhile Char.isWhitespace).reverse

/-- Decimal digits to a natural number. -/
def digitsToNat (cs : List Char) : Nat :=
  cs.foldl (fun acc c => acc * 10 + (c.toNat - '0'.toNat)) 0

/-- A non-empty all-digit chunk, or `none`. -/
def decDigits? (cs : List Char) : Option Nat :=
  if cs ≠ [] ∧ cs.all Char.isDigit then some (digitsToNat cs) else none

/-- Python `int(s)` on the decimal literals the scripts feed it: optional
sign, digits; `ValueError` (here `none`) otherwise. -/
def pyInt? (cs : List Char) : Option Int :=
  match stripWs cs with
  | '+' :: rest => (decDigits? rest).map Int.ofNat
  | '-' :: rest => (decDigits? rest).map (fun n => -(n : Int))
  | rest => (decDigits? rest).map Int.ofNat

/-- Exponent suffix of a Python float literal: empty, or `e`/`E`, optional
sign, digits. -/
def pyExp? (m : Frac) : List Char → Option Frac
  | [] => some m
  | c :: rest =>
    if c = 'e' ∨ c = 'E' then
      match rest with
      | '+' :: ds => (decDigits? ds).map (fun e => m * Frac.ofInt ((10 : Nat) ^ e))
      | '-' :: ds => (decDigits? ds).map (fun e => m / Frac.ofInt ((10 : Nat) ^ e))
      | ds => (decDigits? ds).map (fun e => m * Frac.ofInt ((10 : Nat) ^ e))
    else none

/-- Mantissa (with optional fraction) and exponent of a float literal. -/
def pyFloatCore (cs : List Char) : Option Frac :=
  let p := cs.span Char.isDigit
  match p.2 with
  | '.' :: rest2 =>
    let q := rest2.span Char.isDigit
    if p.1 = [] ∧ q.1 = [] then none
    else
      pyExp?
        (Frac.ofInt (digitsToNat p.1) +
          Frac.ofInt (digitsToNat q.1) / Frac.ofInt ((10 : Nat) ^ q.1.length)) q.2
  | _ => if p.1 = [] then none else pyExp? (Frac.ofInt (digitsToNat p.1)) p.2

/-- Python `float(s)` on finite decimal literals (the only forms appearing
in VENUS96 output; `inf`/`nan`/underscores are not modelled), as an exact
rational. -/
def pyFloat? (cs : List Char) : Option Frac :=
  match stripWs cs with
  | '+' :: rest => pyFloatCore rest
  | '-' :: rest => (pyFloatCore rest).map Neg.neg
  | rest => pyFloatCore rest

/-- `[float(x) for x in ts]`: parse every token as a float, `ValueError`
on the first failure. -/
def parseFloatsE : List (List Char) → Except PyErr (List Frac)
  | [] => Except.ok []
  | t :: rest =>
    Except.bind (liftO PyErr.valueError (pyFloat? t)) fun q =>
    Except.bind (parseFloatsE rest) fun qs =>
    Except.ok (q :: qs)

/-- One frame of the output, `G96Mol` of `venus2g96.py` (lines 11-17).
The Python `timestep` pair is flattened into the `cycle` and `time`
fields; `position`/`velocity` are the per-atom vectors (each the list of
parsed components); `box` is the zero default of the dataclass. -/
structure G96Mol where
  title : String
  cycle : Int
  time : Frac
  position : List (List Frac)
  velocity : List (List Frac)
  box : List Frac
  deriving DecidableEq

/-- The mutable scanner state of `venus2g96` Section 1 (lines 139-221):
`num_atoms` (0 until the NUMBER OF ATOMS anchor), the mass table (empty
until the MASSES OF ATOMS anchor), the last declared trajectory index and
the list of trajectory groups built so far. -/
structure ParseState where
  num_atoms : Int
  masses : List Frac
  cur_traj_idx : Int
  traj_list : List (List G96Mol)
  deriving DecidableEq

/-- Anchor substrings of the scanner (`venus2g96.py` lines 145-148). -/
def anchorNumAtoms : List Char := "NUMBER OF ATOMS".data

/-- Anchor for the mass table line. -/
def anchorMasses : List Char := "MASSES OF ATOMS".data

/-- Anchor for a trajectory declaration. -/
def anchorTraj : List Char := "TRAJECTORY NUMBER".data

/-- Anchor for the start of a frame block. -/
def anchorCycle : List Char := "THE CYCLE COUNT IS".data

/-- The atom-block loop of the frame parser (`venus2g96.py` lines 187-201):
for each remaining loop index `i`, advance the cursor, read the atom line,
split it, scale the first three fields by 0.1 (Angstrom to nm), parse the
remaining momentum fields and divide by `masses[i]` times 0.1 (momenta to
nm/ps via the factor 10.0).  Errors: cursor past end of file (IndexError),
malformed numeric field (ValueError), `i` past the end of the mass table
(IndexError) - `masses[i]` is evaluated even when the momentum list is
empty, because the numpy division evaluates its right operand. -/
def atomLoop (contents : List (List Char)) (masses : List Frac) :
    List Nat → Nat → List (List Frac) → List (List Frac) →
      Except PyErr (Nat × List (List Frac) × List (List Frac))
  | [], idx, xyz, vel => Except.ok (idx, xyz, vel)
  | i :: irest, idx, xyz, vel =>
    Except.bind (listGetE contents (idx + 1)) fun line =>
    Except.bind (parseFloatsE ((wsplit line).take 3)) fun xs =>
    Except.bind (parseFloatsE ((wsplit line).drop 3)) fun ps =>
    Except.bind (listGetE masses i) fun m =>
    atomLoop contents masses irest (idx + 1)
      (xyz ++ [xs.map (fun x => (1 / 10 : Frac) * x)])
      (vel ++ [ps.map (fun p => 10 * p / m)])

/-- The reorder loop (`venus2g96.py` lines 203-209): `_xyz`/`_vel` are the
deep-copied snapshots, `curX`/`curV` the arrays being overwritten in
place; for each `(old_idx, new_idx)` in `enumerate(reorder_map)` the
snapshot is read at `new_idx` (Python indexing, negative values wrap) and
written at `old_idx`. -/
def reorderLoop (snapX snapV : List (List Frac)) :
    List Int → Nat → List (List Frac) → List (List Frac) →
      Except PyErr (List (List Frac) × List (List Frac))
  | [], _, curX, curV => Except.ok (curX, curV)
  | newIdx :: mrest, oldIdx, curX, curV =>
    Except.bind (pyGet snapX newIdx) fun vx =>
    Except.bind (pySet curX oldIdx vx) fun curX2 =>
    Except.bind (pyGet snapV newIdx) fun vv =>
    Except.bind (pySet curV oldIdx vv) fun curV2 =>
    reorderLoop snapX snapV mrest (oldIdx + 1) curX2 curV2

/-- `traj_list[-1].append(g96_mol)` (`venus2g96.py` line 219): IndexError on
an empty trajectory list, otherwise the frame is appended to the last
group. -/
def appendLast (tl : List (List G96Mol)) (fr : G96Mol) : Except PyErr (List (List G96Mol)) :=
  match tl with
  | [] => Except.error PyErr.indexError
  | _ => Except.ok (tl.dropLast ++ [tl.getLastD [] ++ [fr]])

/-- The frame-block branch of the scanner (`venus2g96.py` lines 175-219):
read the cycle count from token 4 and the raw time from token 6 of the
anchor line, scale the time by 1.0e-02, skip 4 lines, run the atom loop
for `range(num_atoms)` atoms, optionally reorder, then append the new
`G96Mol` to the last trajectory group.  Returns the cursor position after
the consumed atom lines together with the new state. -/
def processCycle (contents : List (List Char)) (reorder_map : Option (List Int))
    (idx : Nat) (line : List Char) (st : ParseState) : Except PyErr (Nat × ParseState) :=
  Except.bind (listGetE (wsplit line) 4) fun ct =>
  Except.bind (liftO PyErr.valueError (pyInt? ct)) fun cur_cycle =>
  Except.bind (listGetE (wsplit line) 6) fun tt =>
  Except.bind (liftO PyErr.valueError (pyFloat? tt)) fun rawt =>
  Except.bind (atomLoop contents st.masses (List.range st.num_atoms.toNat) (idx + 4) [] []) fun r =>
  Except.bind
    (match reorder_map with
     | none => Except.ok (r.2.1, r.2.2)
     | some m => reorderLoop r.2.1 r.2.2 m 0 r.2.1 r.2.2) fun pv =>
  Except.bind (appendLast st.traj_list
      { title := "", cycle := cur_cycle, time := rawt * (1 / 100),
        position := pv.1, velocity := pv.2, box := [0, 0, 0] }) fun tl =>
  Except.ok (r.1, { st with traj_list := tl })

/-- One iteration of the scanner loop (`venus2g96.py` lines 154-221).  The
four anchor tests run in sequence on the same iteration; the MASSES branch
advances the cursor and rebinds `line`, so the later branches test the
rebound line, exactly as in the source.  Returns the cursor for the next
iteration (the final `cur_line_idx += 1` included) and the new state. -/
def processLine (contents : List (List Char)) (reorder_map : Option (List Int))
    (idx0 : Nat) (st0 : ParseState) : Except PyErr (Nat × ParseState) :=
  Except.bind (listGetE contents idx0) fun line0 =>
  Except.bind
    (if containsSub line0 anchorNumAtoms then
       Except.bind (liftO PyErr.valueError (pyInt? (afterLastEq line0))) fun v =>
       Except.ok { st0 with num_atoms := v }
     else Except.ok st0) fun st1 =>
  Except.bind
    (if containsSub line0 anchorMasses then
       Except.bind (listGetE contents (idx0 + 2)) fun line2 =>
       Except.bind (parseFloatsE (wsplit line2)) fun ms =>
       Except.ok (idx0 + 2, line2, { st1 with masses := ms })
     else Except.ok (idx0, line0, st1)) fun p =>
  Except.bind
    (if containsSub p.2.1 anchorTraj then
       Except.bind (listGetE (wsplit p.2.1) 3) fun t =>
       Except.bind (liftO PyErr.valueError (pyInt? t)) fun v =>
       Except.ok { p.2.2 with
                   cur_traj_idx := v,
                   traj_list := if (p.2.2.traj_list.length : Int) < v
                                then p.2.2.traj_list ++ [[]]
                                else p.2.2.traj_list }
     else Except.ok p.2.2) fun st2 =>
  if containsSub p.2.1 anchorCycle then
    Except.bind (processCycle contents reorder_map p.1 p.2.1 st2) fun r =>
    Except.ok (r.1 + 1, r.2)
  else Except.ok (p.1 + 1, st2)

/-- The scanner loop (`while cur_line_idx < num_lines`), fuelled: the
cursor strictly increases each iteration, so `contents.length` iterations
always suffice and the fuel-exhausted branch is unreachable from
`venusParse`. -/
def parseLoop (contents : List (List Char)) (reorder_map : Option (List Int)) :
    Nat → Nat → ParseState → Except PyErr ParseState
  | 0, _, st => Except.ok st
  | fuel + 1, idx, st =>
    if idx < contents.length then
      Except.bind (processLine contents reorder_map idx st) fun r =>
      parseLoop contents reorder_map fuel r.1 r.2
    else Except.ok st

/-- Section 1 of `venus2g96` as a function from the input lines (and the
already loaded, already 0-based reorder map) to the final scanner state. -/
def venusParse (reorder_map : Option (List Int)) (lines : List String) : Except PyErr ParseState :=
  parseLoop (lines.map String.data) reorder_map lines.length 0
    { num_atoms := 0, masses := [], cur_traj_idx := 0, traj_list := [] }

/-- File names for the writer model.  Path strings are modelled
algebraically: `plain dir stem` stands for the path `dir/stem.g96` (with
`dir = ""` meaning a bare relative name resolved in the working
directory), and `bak dir stem v` stands for the rotated backup
`dir/#stem.v.g96#`.  This captures exactly the `os.path.dirname` /
`os.path.basename` / `replace(".g96", "")` arithmetic of
`_auto_backup_file` without re-implementing path strings. -/
inductive FName where
  | plain (dir : String) (stem : String)
  | bak (dir : String) (stem : String) (ver : Nat)
  deriving DecidableEq

/-- `os.path.dirname` of a modelled path. -/
def FName.dirOf : FName → String
  | .plain d _ => d
  | .bak d _ _ => d

/-- `os.path.basename(file).replace(".g96", "")` of a modelled path. -/
def FName.stemOf : FName → String
  | .plain _ s => s
  | .bak _ s v => "#" ++ s ++ "." ++ toString v ++ "#"

/-- Does this file match the backup glob `#stem.*.g96#` scanned in `dir`
(`os.path.join(file_dir, old_file_pattern)`)? -/
def FName.isBakOf : FName → String → String → Bool
  | .bak d s _, dir, stem => d == dir && s == stem
  | _, _, _ => false

/-- The file-system contents visible to the writer: the set of existing
file names (the data inside them does not affect control flow). -/
abbrev FsState := List FName

/-- Observable file-system actions of the writer, recorded in order.  A
`renamed` event carries whether the rename target already existed - on
POSIX `os.rename` silently replaces an existing target, so a `true` flag
means a file was destroyed by the rename. -/
inductive FsEvent where
  | renamed (src tgt : FName) (tgtExisted : Bool)
  | openedW (f : FName)
  deriving DecidableEq

/-- Effect of `os.rename(src, tgt)` on the file-system state. -/
def renameFs (fs : FsState) (src tgt : FName) : FsState :=
  tgt :: fs.filter (fun g => g != src && g != tgt)

/-- `_auto_backup_file` (`venus2g96.py` lines 224-238): do nothing when the
target does not exist; otherwise count the existing backups matching the
glob `#stem.*.g96#` in the target's directory and rename the target to
version count+1.  The source builds `new_backup_file_name` from the
basename alone (no `os.path.join(file_dir, ...)`), so the rename target is
resolved against the working directory: its `dir` component is `""`. -/
def autoBackupFile (fs : FsState) (file : FName) : FsState × List FsEvent :=
  if fs.contains file then
    let num_old := (fs.filter (fun g => g.isBakOf file.dirOf file.stemOf)).length
    let tgt := FName.bak "" file.stemOf (num_old + 1)
    (renameFs fs file tgt, [FsEvent.renamed file tgt (fs.contains tgt)])
  else (fs, [])

/-- `open(name, "w")`: create or truncate `name`. -/
def openForWrite (fs : FsState) (file : FName) : FsState :=
  file :: fs.filter (fun g => g != file)

/-- Write one trajectory file: rotate any existing file at `name` to a
backup, then open `name` for writing (`venus2g96.py` lines 247-250). -/
def writeTraj (fs : FsState) (name : FName) : FsState × List FsEvent :=
  let r := autoBackupFile fs name
  (openForWrite r.1 name, r.2 ++ [FsEvent.openedW name])

/-- The writer loop over `enumerate(traj_list)` (`venus2g96.py` lines
245-252): the per-trajectory file name is the base path with suffix
`_(traj_idx + 1)` inserted before the extension.  Returns the final
file-system state, the event trace, and the written (name, frames)
pairs in order. -/
def writeFold (outDir outStem : String) :
    List (List G96Mol) → Nat → FsState → FsState × List FsEvent × List (FName × List G96Mol)
  | [], _, fs => (fs, [], [])
  | traj :: rest, i, fs =>
    let name := FName.plain outDir (outStem ++ "_" ++ toString (i + 1))
    let r1 := writeTraj fs name
    let r2 := writeFold outDir outStem rest (i + 1) r1.1
    (r2.1, r1.2 ++ r2.2.1, (name, traj) :: r2.2.2)

/-- Section 2 of `venus2g96` (lines 240-252): with `split` disabled the
trajectory groups are first flattened into a single group
(`np.concatenate(traj_list).reshape(1, -1).tolist()`; `np.concatenate`
raises `ValueError` on an empty list), then each group is written to its
own suffixed file. -/
def writeAll (outDir outStem : String) (split : Bool) (traj_list : List (List G96Mol))
    (fs : FsState) : Except PyErr (FsState × List FsEvent × List (FName × List G96Mol)) :=
  if split then Except.ok (writeFold outDir outStem traj_list 0 fs)
  else
    match traj_list with
    | [] => Except.error PyErr.valueError
    | _ => Except.ok (writeFold outDir outStem [traj_list.flatten] 0 fs)

/-- The whole `venus2g96` conversion over a file-system state: Section 1
(parsing) runs first and touches no files; only when it succeeds does
Section 2 write anything.  Returns the outcome together with the final
file-system state and the event trace (unchanged / empty when a fatal
error aborts the run). -/
def venus2g96Run (reorder_map : Option (List Int)) (lines : List String)
    (outDir outStem : String) (split : Bool) (fs : FsState) :
    Except PyErr (List (FName × List G96Mol)) × FsState × List FsEvent :=
  match venusParse reorder_map lines with
  | Except.error e => (Except.error e, fs, [])
  | Except.ok st =>
    match writeAll outDir outStem split st.traj_list fs with
    | Except.error e => (Except.error e, fs, [])
    | Except.ok r => (Except.ok r.2.2, r.1, r.2.1)

/-- Python `str.replace(pat, rep)` (all non-overlapping occurrences, left
to right), fuelled structural recursion over the char list. -/
def pyReplaceAux (pat rep : List Char) : Nat → List Char → List Char
  | 0, cs => cs
  | _, [] => []
  | fuel + 1, c :: rest =>
    if pat ≠ [] ∧ List.isPrefixOf pat (c :: rest) then
      rep ++ pyReplaceAux pat rep fuel (List.drop pat.length (c :: rest))
    else c :: pyReplaceAux pat rep fuel rest

/-- Python `s.replace(pat, rep)` on strings. -/
def pyStrReplace (s pat rep : String) : String :=
  String.mk (pyReplaceAux pat.data rep.data s.data.length s.data)

/-- Per-trajectory file name of the g96 variant (`venus2g96.py` line 246):
`out_g96.replace(".g96", f"_{traj_idx + 1}.g96")`, `traj_idx` being the
0-based `enumerate` index. -/
def g96TrajName (out_g96 : String) (traj_idx : Nat) : String :=
  pyStrReplace out_g96 (".g96") ("_" ++ toString (traj_idx + 1) ++ ".g96")

/-- Per-trajectory file name of the gro variant (`venus2gro.py` line 277):
`out_gro.replace(".gro", f"_{traj_idx}.gro")` - note the suffix is the
0-based `enumerate` index itself, not `traj_idx + 1`. -/
def groTrajName (out_gro : String) (traj_idx : Nat) : String :=
  pyStrReplace out_gro (".gro") ("_" ++ toString traj_idx ++ ".gro")

/-- Input fixture: the end-to-end scenario of the spec - atom count
declared as 2, mass line `1.0 2.0` two lines after its anchor, a
trajectory anchor declaring index 1 (token position 3), a cycle anchor
with cycle token 100 (position 4) and raw time token 50.0 (position 6),
the fixed 4-line skip, then the two atom lines. -/
def c1Lines : List String := [
  " NUMBER OF ATOMS = 2",
  " MASSES OF ATOMS",
  " (amu)",
  "     1.0     2.0",
  " TRAJECTORY NUMBER =    1",
  " THE CYCLE COUNT IS 100 TIME: 50.0",
  " filler a",
  " filler b",
  " filler c",
  " filler d",
  "   1.0   2.0   3.0   0.0   0.0   0.0",
  "   4.0   5.0   6.0   2.0   0.0   0.0"
]

/-- Input fixture: a trajectory anchor followed immediately by a cycle
anchor, with no NUMBER OF ATOMS and no MASSES OF ATOMS anywhere. -/
def c3Lines : List String := [
  " TRAJECTORY NUMBER =    1",
  " THE CYCLE COUNT IS 7 TIME: 3.0"
]

/-- Input fixture: atom count declared as 1 but a mass line carrying three
values, followed by a complete one-atom cycle block. -/
def c5Lines : List String := [
  " NUMBER OF ATOMS = 1",
  " MASSES OF ATOMS",
  " (amu)",
  "     1.0     2.0     3.0",
  " TRAJECTORY NUMBER =    1",
  " THE CYCLE COUNT IS 5 TIME: 10.0",
  " filler a",
  " filler b",
  " filler c",
  " filler d",
  "   1.0   1.0   1.0   2.0   0.0   0.0"
]

/-- Input fixture: a cycle anchor with no preceding trajectory anchor
(the `traj_list[-1]` append raises IndexError). -/
def c8Lines : List String := ["THE CYCLE COUNT IS 1 T 2.0"]

/-- A trivial frame, used to exercise the writer. -/
def fr0 : G96Mol :=
  { title := "", cycle := 0, time := 0, position := [], velocity := [], box := [0, 0, 0] }

/-- A well-formed cycle anchor line (cycle 9, raw time 4.0). -/
def c10Line : List Char := "THE CYCLE COUNT IS 9 TIME: 4.0".data

/-- Scanner state after trajectory declarations 1, 2 and then 1 again:
two groups exist and the most recently declared index is 1. -/
def c10State : ParseState :=
  { num_atoms := 0, masses := [], cur_traj_idx := 1, traj_list := [[], []] }

/-- The frame the cycle block of `c10Line` produces (cycle 9, raw time 4.0
scaled to 0.04). -/
def c10Frame : G96Mol :=
  { title := "", cycle := 9, time := 1 / 25, position := [], velocity := [], box := [0, 0, 0] }

deriving instance DecidableEq for Except

/-- Inversion for a successful `Except.bind`. -/
theorem exbind_ok {α β : Type} {x : Except PyErr α} {f : α → Except PyErr β} {b : β} :
    Except.bind x f = Except.ok b ↔ ∃ a, x = Except.ok a ∧ f a = Except.ok b := by
  cases x <;> simp [Except.bind]

/-- `listGetE` succeeds exactly on in-range indices, returning the element. -/
theorem listGetE_ok_iff {α : Type} {xs : List α} {n : Nat} {a : α} :
    listGetE xs n = Except.ok a ↔ xs[n]? = some a := by
  unfold listGetE
  cases h : xs[n]? <;> simp

/-- `listGetE` at an in-range index. -/
theorem listGetE_isOk {α : Type} {xs : List α} {n : Nat} (h : n < xs.length) :
    listGetE xs n = Except.ok (xs.get ⟨n, h⟩) := by
  rw [listGetE_ok_iff, List.getElem?_eq_getElem h]
  rfl

/-- A successful `listGetE` implies the index was in range. -/
theorem listGetE_ok_lt {α : Type} {xs : List α} {n : Nat} {a : α}
    (h : listGetE xs n = Except.ok a) : n < xs.length :=
  (List.getElem?_eq_some.mp (listGetE_ok_iff.mp h)).1

/-- `pyGet` at a non-negative in-range index reads the element. -/
theorem pyGet_nonneg {α : Type} {xs : List α} {i : Int} (h0 : 0 ≤ i) :
    pyGet xs i = listGetE xs i.toNat := by
  unfold pyGet
  rw [if_neg (by omega)]

/-- `pyGet` succeeds on every index in `[-len, len)` (Python wrap-around). -/
theorem pyGet_isOk {α : Type} {xs : List α} {i : Int}
    (h1 : -(xs.length : Int) ≤ i) (h2 : i < (xs.length : Int)) :
    ∃ a, pyGet xs i = Except.ok a := by
  unfold pyGet
  by_cases hi : i < 0
  · rw [if_pos hi, if_pos (by omega)]
    have hlt : (i + (xs.length : Int)).toNat < xs.length := by omega
    exact ⟨_, listGetE_isOk hlt⟩
  · rw [if_neg hi]
    have hlt : i.toNat < xs.length := by omega
    exact ⟨_, listGetE_isOk hlt⟩

/-- `pySet` at an in-range index. -/
theorem pySet_ok {α : Type} {xs : List α} {i : Nat} {v : α} (h : i < xs.length) :
    pySet xs i v = Except.ok (xs.set i v) := by
  unfold pySet
  rw [if_pos h]

/-- Invariant of the reorder loop for an in-range non-negative map:
starting from snapshots `sx`/`sv` and partially overwritten arrays
`cx`/`cv`, the loop succeeds, slots below `oldIdx` keep their current
values, and slot `oldIdx + k` receives the snapshot value at `m.get k`. -/
theorem reorderLoop_spec :
    ∀ (m : List Int) (oldIdx : Nat) (sx sv cx cv : List (List Frac)),
      cx.length = sx.length → cv.length = sv.length → sv.length = sx.length →
      oldIdx + m.length ≤ sx.length →
      (∀ v ∈ m, 0 ≤ v ∧ v < (sx.length : Int)) →
      ∃ xr vr, reorderLoop sx sv m oldIdx cx cv = Except.ok (xr, vr) ∧
        xr.length = cx.length ∧ vr.length = cv.length ∧
        (∀ i, i < oldIdx → xr[i]? = cx[i]? ∧ vr[i]? = cv[i]?) ∧
        (∀ k, ∀ hk : k < m.length,
          xr[oldIdx + k]? = sx[(m.get ⟨k, hk⟩).toNat]? ∧
          vr[oldIdx + k]? = sv[(m.get ⟨k, hk⟩).toNat]?)
  | [], oldIdx, sx, sv, cx, cv, h1, h2, h3, h4, h5 =>
    ⟨cx, cv, rfl, rfl, rfl, fun _ _ => ⟨rfl, rfl⟩, fun k hk => absurd hk (by simp)⟩
  | v :: mrest, oldIdx, sx, sv, cx, cv, h1, h2, h3, h4, h5 => by
    obtain ⟨hv0, hvlt⟩ := h5 v (List.mem_cons_self v mrest)
    have hvN : v.toNat < sx.length := by omega
    have hvV : v.toNat < sv.length := by omega
    have hox : oldIdx < cx.length := by
      simp only [List.length_cons] at h4
      omega
    have hov : oldIdx < cv.length := by omega
    have hreadx : pyGet sx v = Except.ok (sx.get ⟨v.toNat, hvN⟩) := by
      rw [pyGet_nonneg hv0, listGetE_isOk hvN]
    have hreadv : pyGet sv v = Except.ok (sv.get ⟨v.toNat, hvV⟩) := by
      rw [pyGet_nonneg hv0, listGetE_isOk hvV]
    obtain ⟨xr, vr, hrun, hlx, hlv, hlow, hhigh⟩ :=
      reorderLoop_spec mrest (oldIdx + 1) sx sv
        (cx.set oldIdx (sx.get ⟨v.toNat, hvN⟩)) (cv.set oldIdx (sv.get ⟨v.toNat, hvV⟩))
        (by rw [List.length_set]; exact h1) (by rw [List.length_set]; exact h2) h3
        (by simp only [List.length_cons] at h4; omega)
        (fun w hw => h5 w (List.mem_cons_of_mem v hw))
    refine ⟨xr, vr, ?_, ?_, ?_, ?_, ?_⟩
    · simp only [reorderLoop, hreadx, hreadv, pySet_ok hox, pySet_ok hov, Except.bind]
      exact hrun
    · rw [hlx, List.length_set]
    · rw [hlv, List.length_set]
    · intro i hi
      obtain ⟨e1, e2⟩ := hlow i (by omega)
      rw [List.getElem?_set_ne (by omega : oldIdx ≠ i)] at e1
      rw [List.getElem?_set_ne (by omega : oldIdx ≠ i)] at e2
      exact ⟨e1, e2⟩
    · intro k hk
      match k, hk with
      | 0, _ =>
        obtain ⟨e1, e2⟩ := hlow oldIdx (by omega)
        rw [List.getElem?_set_self hox] at e1
        rw [List.getElem?_set_self hov] at e2
        constructor
        · rw [Nat.add_zero, e1]
          exact (List.getElem?_eq_getElem hvN).symm
        · rw [Nat.add_zero, e2]
          exact (List.getElem?_eq_getElem hvV).symm
      | k + 1, hk =>
        have hk2 : k < mrest.length := by
          simp only [List.length_cons] at hk
          omega
        obtain ⟨e1, e2⟩ := hhigh k hk2
        have harith : oldIdx + (k + 1) = oldIdx + 1 + k := by omega
        rw [harith]
        exact ⟨e1, e2⟩

/-- The reorder loop succeeds for any map whose entries lie in
`[-len, len)`, whether or not it is a permutation: no validation happens
anywhere. -/
theorem reorderLoop_isOk :
    ∀ (m : List Int) (oldIdx : Nat) (sx sv cx cv : List (List Frac)),
      cx.length = sx.length → cv.length = sv.length → sv.length = sx.length →
      oldIdx + m.length ≤ sx.length →
      (∀ v ∈ m, -(sx.length : Int) ≤ v ∧ v < (sx.length : Int)) →
      ∃ r, reorderLoop sx sv m oldIdx cx cv = Except.ok r
  | [], _, _, _, cx, cv, _, _, _, _, _ => ⟨(cx, cv), rfl⟩
  | v :: mrest, oldIdx, sx, sv, cx, cv, h1, h2, h3, h4, h5 => by
    obtain ⟨hv0, hvlt⟩ := h5 v (List.mem_cons_self v mrest)
    have hv0v : -((sv.length : Int)) ≤ v := by omega
    have hvltv : v < (sv.length : Int) := by omega
    obtain ⟨a, ha⟩ := pyGet_isOk hv0 hvlt
    obtain ⟨b, hb⟩ := pyGet_isOk hv0v hvltv
    have hox : oldIdx < cx.length := by
      simp only [List.length_cons] at h4
      omega
    have hov : oldIdx < cv.length := by omega
    obtain ⟨r, hr⟩ :=
      reorderLoop_isOk mrest (oldIdx + 1) sx sv (cx.set oldIdx a) (cv.set oldIdx b)
        (by rw [List.length_set]; exact h1) (by rw [List.length_set]; exact h2) h3
        (by simp only [List.length_cons] at h4; omega)
        (fun w hw => h5 w (List.mem_cons_of_mem v hw))
    refine ⟨r, ?_⟩
    simp only [reorderLoop, ha, hb, pySet_ok hox, pySet_ok hov, Except.bind]
    exact hr

/-- Inversion of a successful `traj_list[-1].append`: the input list was
non-empty and the output extends exactly its last group. -/
theorem appendLast_ok {tl0 : List (List G96Mol)} {fr : G96Mol} {tl : List (List G96Mol)}
    (h : appendLast tl0 fr = Except.ok tl) :
    ∃ pre lastG, tl0 = pre ++ [lastG] ∧ tl = pre ++ [lastG ++ [fr]] := by
  rcases List.eq_nil_or_concat tl0 with hnil | ⟨pre, lastG, hcat⟩
  · rw [hnil] at h
    exact absurd h (by simp [appendLast])
  · rw [List.concat_eq_append] at hcat
    subst hcat
    refine ⟨pre, lastG, rfl, ?_⟩
    have hne : appendLast (pre ++ [lastG]) fr =
        Except.ok ((pre ++ [lastG]).dropLast ++ [(pre ++ [lastG]).getLastD [] ++ [fr]]) := by
      unfold appendLast
      cases pre <;> rfl
    rw [hne] at h
    have he := Except.ok.inj h
    rw [List.dropLast_concat, List.getLastD_concat] at he
    exact he.symm

/-- The atom loop can never succeed when some loop index reaches past the
end of the mass table: each iteration evaluates `masses[i]`, and every
other exit path of an iteration is itself an error. -/
theorem atomLoop_not_ok :
    ∀ (idxs : List Nat) (contents : List (List Char)) (masses : List Frac) (idx : Nat)
      (xyz vel : List (List Frac)),
      (∃ i ∈ idxs, masses.length ≤ i) →
      ∀ r, atomLoop contents masses idxs idx xyz vel ≠ Except.ok r
  | [], _, _, _, _, _, hex, _ => by
    obtain ⟨i, hmem, _⟩ := hex
    exact absurd hmem (List.not_mem_nil i)
  | i0 :: irest, contents, masses, idx, xyz, vel, hex, r => by
    intro h
    obtain ⟨i, hmem, hlen⟩ := hex
    simp only [atomLoop, exbind_ok] at h
    obtain ⟨line, _, xs, _, ps, _, mM, hmM, hrec⟩ := h
    have hi0 : i0 < masses.length := listGetE_ok_lt hmM
    rcases List.mem_cons.mp hmem with heq | hmem2
    · omega
    · exact atomLoop_not_ok irest contents masses (idx + 1)
        (xyz ++ [xs.map (fun x => (1 / 10 : Frac) * x)])
        (vel ++ [ps.map (fun p => 10 * p / mM)])
        ⟨i, hmem2, hlen⟩ r hrec

/-- Inversion of a successful frame block: whatever the current state, the
new trajectory list extends exactly the last existing group with one new
frame, and the other scanner fields are untouched. -/
theorem processCycle_ok_shape {contents : List (List Char)} {rm : Option (List Int)}
    {idx : Nat} {line : List Char} {st : ParseState} {r : Nat × ParseState}
    (h : processCycle contents rm idx line st = Except.ok r) :
    ∃ fr pre lastG, st.traj_list = pre ++ [lastG] ∧
      r.2.traj_list = pre ++ [lastG ++ [fr]] ∧
      r.2.num_atoms = st.num_atoms ∧ r.2.masses = st.masses ∧
      r.2.cur_traj_idx = st.cur_traj_idx := by
  simp only [processCycle, exbind_ok] at h
  obtain ⟨ct, _, cyc, _, tt, _, rawt, _, a, _, pv, _, tl, htl, hfin⟩ := h
  obtain ⟨pre, lastG, hpre, htl2⟩ := appendLast_ok htl
  have hr := (Except.ok.inj hfin).symm
  refine ⟨{ title := "", cycle := cyc, time := rawt * (1 / 100),
            position := pv.1, velocity := pv.2, box := [0, 0, 0] },
          pre, lastG, hpre, ?_, ?_, ?_, ?_⟩ <;> (rw [hr]; try simp [htl2])

/-- The frame block can never succeed when the atom loop (at the exact
arguments the block passes it) cannot succeed. -/
theorem processCycle_not_ok_atoms {contents : List (List Char)} {rm : Option (List Int)}
    {idx : Nat} {line : List Char} {st : ParseState}
    (hal : ∀ r2, atomLoop contents st.masses (List.range st.num_atoms.toNat) (idx + 4) [] [] ≠
      Except.ok r2) :
    ∀ r, processCycle contents rm idx line st ≠ Except.ok r := by
  intro r h
  simp only [processCycle, exbind_ok] at h
  obtain ⟨ct, _, cyc, _, tt, _, rawt, _, a, ha, _⟩ := h
  exact hal a ha

/-- The frame block can never succeed when no trajectory group exists. -/
theorem processCycle_not_ok_empty {contents : List (List Char)} {rm : Option (List Int)}
    {idx : Nat} {line : List Char} {st : ParseState} (he : st.traj_list = []) :
    ∀ r, processCycle contents rm idx line st ≠ Except.ok r := by
  intro r h
  simp only [processCycle, exbind_ok] at h
  obtain ⟨ct, _, cyc, _, tt, _, rawt, _, a, _, pv, _, tl, htl, _⟩ := h
  obtain ⟨pre, lastG, hpre, _⟩ := appendLast_ok htl
  rw [he] at hpre
  exact absurd hpre.symm (by simp)

/-- The written (name, frames) pairs of the writer loop carry exactly the
input trajectory groups, in order. -/
theorem writeFold_snd :
    ∀ (tl : List (List G96Mol)) (d s : String) (i : Nat) (fs : FsState),
      ((writeFold d s tl i fs).2.2).map Prod.snd = tl
  | [], _, _, _, _ => rfl
  | traj :: rest, d, s, i, fs => by
    simp only [writeFold, List.map]
    rw [writeFold_snd rest]

/-- Mapping each pair to the length of its second component factors
through mapping to the second component. -/
theorem map_len_snd {α β : Type} :
    ∀ l : List (α × List β), l.map (fun p => p.2.length) = (l.map Prod.snd).map List.length
  | [] => rfl
  | x :: xs => by
    simp only [List.map]
    rw [map_len_snd xs]

/-- C1: the end-to-end scenario.  For the source stream with atom count 2,
mass line `1.0 2.0`, one trajectory anchor declaring index 1, one cycle
block with cycle token 100 and raw time token 50.0, the fixed 4-line skip
and the two atom lines, the parser produces exactly one trajectory with
exactly one frame: cycle 100, time 0.5 (= 50.0 * 1.0e-02), positions
((0.1,0.2,0.3),(0.4,0.5,0.6)) (raw * 0.1) and velocities ((0,0,0),(10,0,0))
(10.0 * momentum / mass). -/
theorem c1_end_to_end :
    venusParse none c1Lines = Except.ok
      { num_atoms := 2, masses := [1, 2], cur_traj_idx := 1,
        traj_list := [[{ title := "", cycle := 100, time := 1 / 2,
                         position := [[1 / 10, 1 / 5, 3 / 10], [2 / 5, 1 / 2, 3 / 5]],
                         velocity := [[0, 0, 0], [10, 0, 0]],
                         box := [0, 0, 0] }]] } := by
  decide

set_option synthInstance.maxSize 1024 in
/-- C2: evidence for the backup-rotation defect.  The output path has
directory component `sub`, so the per-trajectory file is `sub/traj_1.g96`,
which already exists.  The first run rotates it to backup version 1 - but
into the working directory (`dir = ""`), not into `sub`, because the
source builds the rename target from the basename alone.  The second run
scans `sub` for backups, finds none, picks version 1 again, and its rename
target already exists (flag `true`): the first backup is silently
overwritten, so previous output is destroyed. -/
theorem c2_backup_overwrite :
    (writeAll "sub" "traj" true [[fr0]] [FName.plain "sub" "traj_1"] =
      Except.ok ([FName.plain "sub" "traj_1", FName.bak "" "traj_1" 1],
        [FsEvent.renamed (FName.plain "sub" "traj_1") (FName.bak "" "traj_1" 1) false,
         FsEvent.openedW (FName.plain "sub" "traj_1")],
        [(FName.plain "sub" "traj_1", [fr0])])) ∧
    (writeAll "sub" "traj" true [[fr0]]
        [FName.plain "sub" "traj_1", FName.bak "" "traj_1" 1] =
      Except.ok ([FName.plain "sub" "traj_1", FName.bak "" "traj_1" 1],
        [FsEvent.renamed (FName.plain "sub" "traj_1") (FName.bak "" "traj_1" 1) true,
         FsEvent.openedW (FName.plain "sub" "traj_1")],
        [(FName.plain "sub" "traj_1", [fr0])])) := by
  decide

/-- C3 (counterexample): a cycle anchor reached before the atom count and
the mass table are established does not make parsing fail when a
trajectory group already exists - a frame (with empty position and
velocity arrays) is produced, contradicting the claim that a fatal error
occurs and no frame is produced. -/
theorem c3_counterexample :
    venusParse none c3Lines = Except.ok
      { num_atoms := 0, masses := [], cur_traj_idx := 1,
        traj_list := [[{ title := "", cycle := 7, time := 3 / 100,
                         position := [], velocity := [],
                         box := [0, 0, 0] }]] } := by
  decide

/-- C3 (amended): a frame block is fatal when no trajectory group exists
yet (the `traj_list[-1]` append raises IndexError) or when the atom count
is positive while the mass table is still empty (the `masses[i]` lookup
raises IndexError); but an unset atom count alone is not fatal - with a
trajectory group present, a frame with empty arrays is produced (see the
counterexample). -/
theorem c3_amended (contents : List (List Char)) (rm : Option (List Int)) (idx : Nat)
    (line : List Char) (st : ParseState)
    (h : st.traj_list = [] ∨ (1 ≤ st.num_atoms ∧ st.masses = [])) :
    ∀ r, processCycle contents rm idx line st ≠ Except.ok r := by
  rcases h with he | ⟨hn, hm⟩
  · exact processCycle_not_ok_empty he
  · apply processCycle_not_ok_atoms
    apply atomLoop_not_ok
    refine ⟨0, List.mem_range.mpr ?_, ?_⟩
    · omega
    · rw [hm]
      simp

/-- Witness for the C3 amended theorem: atom count 1 with an empty mass
table makes the frame block fail. -/
theorem c3_amended_witness :
    processCycle (List.map String.data c8Lines) none 0 ("THE CYCLE COUNT IS 1 T 2.0".data)
      { num_atoms := 1, masses := [], cur_traj_idx := 0, traj_list := [[]] } ≠
      Except.ok (0, { num_atoms := 1, masses := [], cur_traj_idx := 0, traj_list := [[]] }) :=
  c3_amended _ _ _ _ _ (Or.inr ⟨by decide, rfl⟩) _

/-- C4: the reorder step.  For arrays of length N and a non-negative
in-range map of length N (any valid permutation in particular), the loop
succeeds and produces arrays with `new[i] = old[map[i]]` for every
`i < N`, for positions and velocities alike - the reads go to the deep
copied snapshot, never to the partially overwritten arrays. -/
theorem c4_reorder (m : List Int) (xyzs vels : List (List Frac))
    (hm : m.length = xyzs.length) (hv : vels.length = xyzs.length)
    (hr : ∀ v ∈ m, 0 ≤ v ∧ v < (xyzs.length : Int)) :
    ∃ xr vr, reorderLoop xyzs vels m 0 xyzs vels = Except.ok (xr, vr) ∧
      xr.length = xyzs.length ∧ vr.length = vels.length ∧
      ∀ i, ∀ hi : i < m.length,
        xr[i]? = xyzs[(m.get ⟨i, hi⟩).toNat]? ∧ vr[i]? = vels[(m.get ⟨i, hi⟩).toNat]? := by
  obtain ⟨xr, vr, hrun, hlx, hlv, _, hhigh⟩ :=
    reorderLoop_spec m 0 xyzs vels xyzs vels rfl rfl hv (by omega) hr
  refine ⟨xr, vr, hrun, hlx, hlv, ?_⟩
  intro i hi
  have hh := hhigh i hi
  rwa [Nat.zero_add] at hh

/-- Witness for C4 at the concrete swap map (1 0) on two atoms. -/
theorem c4_reorder_witness :
    ∃ xr vr,
      reorderLoop [[(1 : Frac)], [2]] [[(3 : Frac)], [4]] [1, 0] 0
        [[(1 : Frac)], [2]] [[(3 : Frac)], [4]] = Except.ok (xr, vr) ∧
      xr.length = 2 ∧ vr.length = 2 ∧
      ∀ i, ∀ hi : i < 2,
        xr[i]? = [[(1 : Frac)], [2]][(([1, 0] : List Int).get ⟨i, hi⟩).toNat]? ∧
        vr[i]? = [[(3 : Frac)], [4]][(([1, 0] : List Int).get ⟨i, hi⟩).toNat]? :=
  c4_reorder [1, 0] [[1], [2]] [[3], [4]] rfl rfl (by decide)

/-- C5 (counterexample): with atom count declared as 1 but a mass line
carrying three values, the conversion does not fail - it completes and
writes an output file, contradicting the claim that a mismatched mass
count aborts before producing output. -/
theorem c5_counterexample :
    venus2g96Run none c5Lines "" "traj" true [] =
      (Except.ok [(FName.plain "" "traj_1",
          [{ title := "", cycle := 5, time := 1 / 10,
             position := [[1 / 10, 1 / 10, 1 / 10]],
             velocity := [[20, 0, 0]],
             box := [0, 0, 0] }])],
       [FName.plain "" "traj_1"],
       [FsEvent.openedW (FName.plain "" "traj_1")]) := by
  decide

/-- C5 (amended): no length check happens when the mass line is read; a
mass table longer than the atom count is silently accepted (see the
counterexample), and only a mass table shorter than the atom count is
fatal, later, when the frame block looks up a missing `masses[i]`. -/
theorem c5_amended (contents : List (List Char)) (rm : Option (List Int)) (idx : Nat)
    (line : List Char) (st : ParseState)
    (h : (st.masses.length : Int) < st.num_atoms) :
    ∀ r, processCycle contents rm idx line st ≠ Except.ok r := by
  apply processCycle_not_ok_atoms
  apply atomLoop_not_ok
  exact ⟨st.masses.length, List.mem_range.mpr (by omega), le_refl _⟩

/-- Witness for the C5 amended theorem: two atoms but a one-entry mass
table makes the frame block fail. -/
theorem c5_amended_witness :
    processCycle (List.map String.data c8Lines) none 0 ("THE CYCLE COUNT IS 1 T 2.0".data)
      { num_atoms := 2, masses := [1], cur_traj_idx := 0, traj_list := [[]] } ≠
      Except.ok (0, { num_atoms := 2, masses := [1], cur_traj_idx := 0, traj_list := [[]] }) :=
  c5_amended _ _ _ _ _ (by decide) _

/-- C6 (counterexample): the non-bijective reorder map (0 0) - obtained
from the 1-based file (1 1) - is silently applied to the end-to-end
scenario: the run succeeds with no validation error of any kind, and both
output rows carry the data of source atom 0. -/
theorem c6_counterexample :
    venusParse (some [0, 0]) c1Lines = Except.ok
      { num_atoms := 2, masses := [1, 2], cur_traj_idx := 1,
        traj_list := [[{ title := "", cycle := 100, time := 1 / 2,
                         position := [[1 / 10, 1 / 5, 3 / 10], [1 / 10, 1 / 5, 3 / 10]],
                         velocity := [[0, 0, 0], [0, 0, 0]],
                         box := [0, 0, 0] }]] } := by
  decide

/-- C6 (amended): the reorder map is never validated.  Any map whose
0-based entries merely lie in the Python-indexable range `[-N, N)` is
silently applied, bijective or not (duplicates included, negative entries
wrapping around); invalid maps are only ever surfaced as a generic
IndexError during application, never as a dedicated validation error. -/
theorem c6_amended (m : List Int) (xyzs vels : List (List Frac))
    (hm : m.length ≤ xyzs.length) (hv : vels.length = xyzs.length)
    (hr : ∀ v ∈ m, -(xyzs.length : Int) ≤ v ∧ v < (xyzs.length : Int)) :
    ∃ r, reorderLoop xyzs vels m 0 xyzs vels = Except.ok r :=
  reorderLoop_isOk m 0 xyzs vels xyzs vels rfl rfl hv (by omega) hr

/-- Witness for the C6 amended theorem: the duplicate map (0 0) is applied
without error. -/
theorem c6_amended_witness :
    ∃ r, reorderLoop [[(1 : Frac)], [2]] [[(3 : Frac)], [4]] [0, 0] 0
        [[(1 : Frac)], [2]] [[(3 : Frac)], [4]] = Except.ok r :=
  c6_amended [0, 0] [[1], [2]] [[3], [4]] (by decide) rfl (by decide)

/-- C7 (counterexample): for the empty TrajectorySet (obtained from an
empty source stream), split mode writes zero files and succeeds, while
no-split mode raises ValueError (`np.concatenate` of an empty list) and
writes no single file - so the two modes do not behave as the claim
states on every parsed TrajectorySet. -/
theorem c7_counterexample :
    venus2g96Run none [] "" "traj" false [] = (Except.error PyErr.valueError, [], []) ∧
    venus2g96Run none [] "" "traj" true [] = (Except.ok [], [], []) := by
  decide

/-- C7 (amended): for every TrajectorySet with at least one trajectory
group, both modes succeed; split mode writes exactly the per-trajectory
sequences, no-split mode writes their concatenation (in trajectory-index
order) to a single file, and the total frame count is identical. -/
theorem c7_amended (tl : List (List G96Mol)) (h : tl ≠ []) (d s : String) (fs : FsState) :
    ∃ r1 r2,
      writeAll d s true tl fs = Except.ok r1 ∧
      writeAll d s false tl fs = Except.ok r2 ∧
      r1.2.2.map Prod.snd = tl ∧
      r2.2.2.map Prod.snd = [tl.flatten] ∧
      (r2.2.2.map (fun p => p.2.length)).sum = (r1.2.2.map (fun p => p.2.length)).sum := by
  refine ⟨writeFold d s tl 0 fs, writeFold d s [tl.flatten] 0 fs, rfl, ?_,
    writeFold_snd tl d s 0 fs, writeFold_snd [tl.flatten] d s 0 fs, ?_⟩
  · unfold writeAll
    cases tl with
    | nil => exact absurd rfl h
    | cons a rest => rfl
  · have e1 := writeFold_snd tl d s 0 fs
    have e2 := writeFold_snd [tl.flatten] d s 0 fs
    calc ((writeFold d s [tl.flatten] 0 fs).2.2.map (fun p => p.2.length)).sum
        = (((writeFold d s [tl.flatten] 0 fs).2.2.map Prod.snd).map List.length).sum := by
          rw [map_len_snd]
      _ = ([tl.flatten].map List.length).sum := by rw [e2]
      _ = tl.flatten.length := by simp
      _ = (tl.map List.length).sum := List.length_flatten tl
      _ = (((writeFold d s tl 0 fs).2.2.map Prod.snd).map List.length).sum := by rw [e1]
      _ = ((writeFold d s tl 0 fs).2.2.map (fun p => p.2.length)).sum := by rw [map_len_snd]

/-- Witness for the C7 amended theorem on a one-trajectory set. -/
theorem c7_amended_witness :
    ∃ r1 r2,
      writeAll "" "traj" true [[fr0]] [] = Except.ok r1 ∧
      writeAll "" "traj" false [[fr0]] [] = Except.ok r2 ∧
      r1.2.2.map Prod.snd = [[fr0]] ∧
      r2.2.2.map Prod.snd = [([[fr0]] : List (List G96Mol)).flatten] ∧
      (r2.2.2.map (fun p => p.2.length)).sum = (r1.2.2.map (fun p => p.2.length)).sum :=
  c7_amended [[fr0]] (by simp) "" "traj" []

/-- C8: when parsing raises any fatal error, the whole run returns that
error with the file-system state untouched and an empty event trace: no
output file is created, written, or rotated to a backup, because the whole
parsing phase precedes the first backup rename or file open. -/
theorem c8_no_output_on_parse_error (rm : Option (List Int)) (lines : List String)
    (d s : String) (sp : Bool) (fs : FsState) (e : PyErr)
    (h : venusParse rm lines = Except.error e) :
    venus2g96Run rm lines d s sp fs = (Except.error e, fs, []) := by
  unfold venus2g96Run
  rw [h]

/-- Witness for C8: a stream whose cycle anchor precedes any trajectory
anchor makes parsing fail, and the run touches no files. -/
theorem c8_witness :
    venus2g96Run none c8Lines "" "traj" true [] = (Except.error PyErr.indexError, [], []) :=
  c8_no_output_on_parse_error none c8Lines "" "traj" true [] PyErr.indexError (by decide)

/-- C9 (counterexample): in the gro variant the first trajectory (0-based
`enumerate` index 0) is written to `traj_0.gro`, not to `traj_1.gro` as
the claim states for both variants. -/
theorem c9_counterexample :
    groTrajName ("traj.gro") 0 = "traj_0.gro" ∧ ("traj_0.gro" : String) ≠ "traj_1.gro" := by
  constructor
  · decide
  · decide

/-- C9 (amended): the per-trajectory suffix inserted before the extension
is 1-based in the g96 variant (first trajectory suffix `_1`) but 0-based
in the gro variant (first trajectory suffix `_0`). -/
theorem c9_amended :
    g96TrajName ("traj.g96") 0 = "traj_1.g96" ∧ groTrajName ("traj.gro") 0 = "traj_0.gro" := by
  constructor
  · decide
  · decide

/-- C10: every frame produced from a cycle anchor is appended to the most
recently created trajectory group (Python `traj_list[-1]`): whatever the
state - in particular whatever trajectory index was most recently
re-declared - a successful frame block leaves every group but the last
unchanged, extends the last group by exactly the new frame, and does not
touch the declared index. -/
theorem c10_append_last (contents : List (List Char)) (rm : Option (List Int)) (idx : Nat)
    (line : List Char) (st : ParseState) (r : Nat × ParseState)
    (h : processCycle contents rm idx line st = Except.ok r) :
    ∃ fr pre lastG, st.traj_list = pre ++ [lastG] ∧
      r.2.traj_list = pre ++ [lastG ++ [fr]] ∧
      r.2.cur_traj_idx = st.cur_traj_idx := by
  obtain ⟨fr, pre, lastG, h1, h2, _, _, h5⟩ := processCycle_ok_shape h
  exact ⟨fr, pre, lastG, h1, h2, h5⟩

/-- Witness for C10 in the re-declaration scenario: after declarations
1, 2, 1 two groups exist and the declared index is 1 again; the frame of
the next cycle block lands in the second (most recently created) group,
not in group 1. -/
theorem c10_witness :
    ∃ fr pre lastG,
      c10State.traj_list = pre ++ [lastG] ∧
      (((4 : Nat), { c10State with traj_list := [[], [c10Frame]] }) :
        Nat × ParseState).2.traj_list = pre ++ [lastG ++ [fr]] ∧
      (((4 : Nat), { c10State with traj_list := [[], [c10Frame]] }) :
        Nat × ParseState).2.cur_traj_idx = c10State.cur_traj_idx :=
  c10_append_last [] none 0 c10Line c10State _ (by decide)

end Venus
